import Mathlib

/-!
Shallow embedding of the hook-execution engine of acmed (src/acmed/src/hooks.rs).

The engine's pure structure (argument/output/stdin template processing order,
environment merging, exit-status classification, fail-fast dispatch) is
translated directly from the Rust source.  External effects (the handlebars
renderer applied to the fixed context value, `File::create`, `Command::spawn`,
`write_all` on the child's stdin, `Child::wait`) are abstracted by an `Oracle`
supplying each operation's result, and every side effect the code performs is
recorded in an ordered `Effect` trace, so that temporal claims ("before any
process is spawned", "rendered only after spawn") become claims about traces.
-/

set_option autoImplicit false

namespace Hooks

/-- Modelled from the spec: the lifecycle-event enumeration (`HookType`) lives in
the configuration module (src/acmed/src/config.rs), which is not under src/.
The spec (§6) lists distinct tags for: post-issuance/renewal operation,
challenge-proof publish, challenge-proof cleanup, file-storage write. -/
inductive HookType
  | postOperation
  | challengePublish
  | challengeCleanup
  | fileStorage
  deriving DecidableEq, Repr

/-- The `Hook` struct of hooks.rs (lines 78-88): name, registered event kinds,
command, optional argument templates, optional stdin/stdout/stderr templates,
and the allow_failure flag. -/
structure Hook where
  name : String
  hook_type : List HookType
  cmd : String
  args : Option (List String)
  stdin : Option String
  stdout : Option String
  stderr : Option String
  allow_failure : Bool
  deriving DecidableEq, Repr

/-- Modelled from the spec: `Certificate` is an external collaborator (§6) that
exposes an ordered, read-only list of hook definitions; `call` only touches its
`hooks` field. -/
structure Certificate where
  hooks : List Hook

/-- Exit status of a child process, as used by hooks.rs: `status.success()` and
`status.code()` (which is `none` when the process was terminated by a signal). -/
structure ExitStatus where
  success : Bool
  code : Option Int
  deriving DecidableEq, Repr

/-- Stream binding passed to the spawned process: `Stdio::from(file)` for a
created output file, `Stdio::null()`, or `Stdio::piped()`. -/
inductive StdioSpec
  | fromFile (path : String)
  | null
  | piped
  deriving DecidableEq, Repr

/-- One observable side effect of a hook invocation, in order of occurrence.
`fileCreate p` records `File::create(p)` (create-or-truncate at path `p`);
`spawn` records the child-process spawn with its resolved command, arguments,
environment and the three stream bindings; `stdinWrite` records the
`write_all` of the rendered stdin bytes; `wait` records a completed
`Child::wait` with the captured exit status. -/
inductive Effect
  | fileCreate (path : String)
  | spawn (cmd : String) (args : List String) (env : List (String × String))
      (out err inp : StdioSpec)
  | stdinWrite (data : String)
  | wait (status : ExitStatus)
  deriving DecidableEq, Repr

/-- Results of the external operations one `call_single` run may perform.
`render t` abstracts `reg.render_template(t, &data)` for the fixed context
value `data` of the dispatch (rendering is deterministic for a given
(template, context) pair, spec §4.2, so a function of the template alone is
faithful once the context is fixed).  The remaining fields give the outcome of
`File::create`, `Command::spawn`, the stdin `write_all`, and `Child::wait`. -/
structure Oracle where
  render : String → Except String String
  fileCreate : String → Except String Unit
  spawn : Except String Unit
  stdinWrite : String → Except String Unit
  wait : Except String ExitStatus

/-- The argument-rendering loop of call_single (hooks.rs lines 116-125): each
template of the list is rendered in declaration order, the first failure is
propagated by `?`. -/
def renderArgs (o : Oracle) : List String → Except String (List String)
  | [] => Except.ok []
  | t :: ts =>
    match o.render t with
    | Except.error e => Except.error e
    | Except.ok s =>
      match renderArgs o ts with
      | Except.error e => Except.error e
      | Except.ok rest => Except.ok (s :: rest)

/-- The get_hook_output macro (hooks.rs lines 96-107): a present path template
is rendered and a file is created (truncating) at the resolved path, the
stream then bound to that file; an absent template binds the stream to
`Stdio::null()`.  The returned trace records the file creation. -/
def get_hook_output (o : Oracle) : Option String → Except String (StdioSpec × List Effect)
  | some tmpl =>
    match o.render tmpl with
    | Except.error e => Except.error e
    | Except.ok path =>
      match o.fileCreate path with
      | Except.error e => Except.error e
      | Except.ok _ => Except.ok (StdioSpec.fromFile path, [Effect.fileCreate path])
  | none => Except.ok (StdioSpec.null, [])

/-- The failure message built by call_single (hooks.rs lines 147-150) when the
exit status is unsuccessful and allow_failure is false. -/
def failureMsg (hook : Hook) (status : ExitStatus) : String :=
  match status.code with
  | some code => "Hook " ++ hook.name ++ ": unrecoverable failure: code " ++ toString code
  | none => "Hook " ++ hook.name ++ ": unrecoverable failure"

/-- The tail of call_single after stdin handling (hooks.rs lines 145-157):
`cmd.wait()?` captures the exit status, then a non-success status with
`allow_failure = false` is an error carrying the hook name and exit code,
while success or an allowed failure returns `Ok(())`. -/
def finishWait (o : Oracle) (hook : Hook) (tr : List Effect) :
    Except String Unit × List Effect :=
  match o.wait with
  | Except.error e => (Except.error e, tr)
  | Except.ok status =>
    if !status.success && !hook.allow_failure then
      (Except.error (failureMsg hook status), tr ++ [Effect.wait status])
    else
      (Except.ok (), tr ++ [Effect.wait status])

/-- call_single (hooks.rs lines 109-158), with the fixed merged environment
`env` (the result of `data.get_env()`).  Order is exactly the source's:
render the argument templates; build the Command (the stdout binding's
template is rendered and its file created first, then stderr's, then the
stdin binding is chosen: piped when a stdin template is present, null
otherwise); spawn; if a stdin template is present, render it now — after the
spawn — and write the rendered bytes to the child's stdin; wait; classify the
exit status under allow_failure. -/
def call_single (o : Oracle) (env : List (String × String)) (hook : Hook) :
    Except String Unit × List Effect :=
  match renderArgs o (hook.args.getD []) with
  | Except.error e => (Except.error e, [])
  | Except.ok args =>
    match get_hook_output o hook.stdout with
    | Except.error e => (Except.error e, [])
    | Except.ok (outSpec, tr1) =>
      match get_hook_output o hook.stderr with
      | Except.error e => (Except.error e, tr1)
      | Except.ok (errSpec, tr2) =>
        match o.spawn with
        | Except.error e => (Except.error e, tr1 ++ tr2)
        | Except.ok _ =>
          let inSpec : StdioSpec :=
            match hook.stdin with
            | some _ => StdioSpec.piped
            | none => StdioSpec.null
          let tr := tr1 ++ tr2 ++ [Effect.spawn hook.cmd args env outSpec errSpec inSpec]
          match hook.stdin with
          | some t =>
            match o.render t with
            | Except.error e => (Except.error e, tr)
            | Except.ok s =>
              match o.stdinWrite s with
              | Except.error e => (Except.error e, tr)
              | Except.ok _ => finishWait o hook (tr ++ [Effect.stdinWrite s])
          | none => finishWait o hook tr

/-- The loop body of call (hooks.rs lines 160-172): iterate over the
certificate's hooks in order, skip every hook whose hook_type list does not
contain the dispatched hook_type, run call_single on each matching hook with
the same context, and propagate the first error (`?`), dropping the remaining
hooks.  `ofn k` is the oracle for the k-th invocation (the k-th matching
hook); the render component is in practice the same function for every k,
since the context is shared, but nothing below depends on that. -/
def call_aux (ofn : Nat → Oracle) (env : List (String × String)) (ht : HookType) :
    Nat → List Hook → Except String Unit × List Effect
  | _, [] => (Except.ok (), [])
  | k, h :: hs =>
    if h.hook_type.contains ht then
      match call_single (ofn k) env h with
      | (Except.error e, tr) => (Except.error e, tr)
      | (Except.ok _, tr) =>
        let r := call_aux ofn env ht (k + 1) hs
        (r.fst, tr ++ r.snd)
    else
      call_aux ofn env ht k hs

/-- call (hooks.rs lines 160-172): dispatch over the certificate's hook list. -/
def call (cert : Certificate) (ofn : Nat → Oracle) (env : List (String × String))
    (ht : HookType) : Except String Unit × List Effect :=
  call_aux ofn env ht 0 cert.hooks

/-- Sequential invocation of an already-selected hook list: run call_single on
each hook in order, stop at the first error, concatenate the effect traces. -/
def runHooks (ofn : Nat → Oracle) (env : List (String × String)) :
    Nat → List Hook → Except String Unit × List Effect
  | _, [] => (Except.ok (), [])
  | k, h :: hs =>
    match call_single (ofn k) env h with
    | (Except.error e, tr) => (Except.error e, tr)
    | (Except.ok _, tr) =>
      let r := runHooks ofn env (k + 1) hs
      (r.fst, tr ++ r.snd)

/-- The dispatcher as the spec words it (§4.4): first select, in the
certificate's configured order, every hook whose event_kinds contains the
dispatched event kind, then invoke each selected hook sequentially,
short-circuiting on the first fatal outcome.  Stated separately from `call`
so that their equality is a theorem about the code, not a definition. -/
def call_spec (cert : Certificate) (ofn : Nat → Oracle) (env : List (String × String))
    (ht : HookType) : Except String Unit × List Effect :=
  runHooks ofn env 0 (cert.hooks.filter (fun h => h.hook_type.contains ht))

/-- Key lookup in an association-list model of the Rust HashMap. -/
def lookupEnv : List (String × String) → String → Option String
  | [], _ => none
  | (k', v) :: rest, k => if k' = k then some v else lookupEnv rest k

/-- HashMap::insert on the association-list model: replace the value at an
existing key, otherwise add the binding. -/
def insertEnv : List (String × String) → String → String → List (String × String)
  | [], k, v => [(k, v)]
  | (k', v') :: rest, k, v =>
    if k' = k then (k, v) :: rest else (k', v') :: insertEnv rest k v

/-- set_env from the imple_hook_data_env macro (hooks.rs lines 28-42): starting
from the context's current env map, insert every inherited process variable
(`env::vars()`), then every overlay entry (`env.iter().map(deref)`), in that
chained order — so an overlay entry inserted later replaces an inherited one
on key collision.  get_env then iterates the resulting map unchanged. -/
def set_env (selfEnv procVars overlay : List (String × String)) :
    List (String × String) :=
  (procVars ++ overlay).foldl (fun acc kv => insertEnv acc kv.1 kv.2) selfEnv

/-- PostOperationHookData (hooks.rs lines 44-53): its set_env instance is the
generic `set_env` applied to its env field. -/
structure PostOperationHookData where
  domains : List String
  algorithm : String
  status : String
  is_success : Bool
  env : List (String × String)

/-- ChallengeHookData (hooks.rs lines 55-65). -/
structure ChallengeHookData where
  domain : String
  challenge : String
  file_name : String
  proof : String
  is_clean_hook : Bool
  env : List (String × String)

/-- FileStorageHookData (hooks.rs lines 67-76). -/
structure FileStorageHookData where
  file_name : String
  file_directory : String
  file_path : String
  env : List (String × String)

/-- The HookEnvData::set_env instance generated for ChallengeHookData by
imple_hook_data_env; the other two variants are word-for-word identical. -/
def ChallengeHookData.set_env (d : ChallengeHookData) (procVars overlay : List (String × String)) :
    ChallengeHookData :=
  ⟨d.domain, d.challenge, d.file_name, d.proof, d.is_clean_hook,
    Hooks.set_env d.env procVars overlay⟩

/-- The same hook with its allow_failure flag replaced; every other field —
in particular every template — is unchanged. -/
def setAllowFailure (h : Hook) (b : Bool) : Hook :=
  ⟨h.name, h.hook_type, h.cmd, h.args, h.stdin, h.stdout, h.stderr, b⟩

/-- One element of a template: literal text or a named placeholder. -/
inductive TemplatePart
  | lit (s : String)
  | var (field : String)
  deriving DecidableEq, Repr

/-- Modelled from the spec: the Template Renderer (§4.2) is realised by the
third-party handlebars crate, whose code is not under src/.  Per the spec, a
template is resolved by substituting each named placeholder with the
context's serialized field value of that name, and a reference to an unknown
field fails with a TemplateError carrying the offending template — never a
partial or empty substitution.  `fields` is the field-name-keyed serialized
view of the context. -/
def render_template (fields : List (String × String)) :
    List TemplatePart → Except String String
  | [] => Except.ok ""
  | TemplatePart.lit s :: rest =>
    match render_template fields rest with
    | Except.error e => Except.error e
    | Except.ok r => Except.ok (s ++ r)
  | TemplatePart.var f :: rest =>
    match lookupEnv fields f with
    | none => Except.error ("unknown field: " ++ f)
    | some v =>
      match render_template fields rest with
      | Except.error e => Except.error e
      | Except.ok r => Except.ok (v ++ r)

/-! Concrete fixtures used by the witness theorems. -/

/-- Oracle in which every external operation succeeds: templates render to
themselves and the child exits 0. -/
def idOracle : Oracle where
  render := fun t => Except.ok t
  fileCreate := fun _ => Except.ok ()
  spawn := Except.ok ()
  stdinWrite := fun _ => Except.ok ()
  wait := Except.ok ⟨true, some 0⟩

/-- Oracle in which everything succeeds except the child's exit status, which
is a non-zero code 3. -/
def failExitOracle : Oracle where
  render := fun t => Except.ok t
  fileCreate := fun _ => Except.ok ()
  spawn := Except.ok ()
  stdinWrite := fun _ => Except.ok ()
  wait := Except.ok ⟨false, some 3⟩

/-- Oracle in which rendering the template named BAD fails and everything
else succeeds. -/
def badRenderOracle : Oracle where
  render := fun t => if t = "BAD" then Except.error "render failed" else Except.ok t
  fileCreate := fun _ => Except.ok ()
  spawn := Except.ok ()
  stdinWrite := fun _ => Except.ok ()
  wait := Except.ok ⟨true, some 0⟩

/-- A hook with no templates at all, registered for challenge cleanup. -/
def hookPlain : Hook :=
  ⟨"plain", [HookType.challengeCleanup], "/bin/true", none, none, none, none, false⟩

/-- A hook whose single argument template is the failing template BAD. -/
def hookBadArg : Hook :=
  ⟨"badarg", [HookType.challengeCleanup], "/bin/true", some ["BAD"], none, none, none, false⟩

/-- A hook with allow_failure set, an stdout path template and no others. -/
def hookAllow : Hook :=
  ⟨"allow", [HookType.challengeCleanup], "/bin/false", some ["a1", "a2"], none,
    some "out.log", none, true⟩

/-- A hook with a stdin template (the failing template BAD) and an stdout
path template. -/
def hookBadStdin : Hook :=
  ⟨"badstdin", [HookType.challengeCleanup], "/bin/cat", none, some "BAD",
    some "out.log", none, false⟩

/-- A hook registered only for post-operation events. -/
def hookOther : Hook :=
  ⟨"other", [HookType.postOperation], "/bin/true", none, none, none, none, false⟩

/-! Environment-merge lemmas. -/

theorem lookupEnv_insertEnv_self (m : List (String × String)) (k v : String) :
    lookupEnv (insertEnv m k v) k = some v := by
  induction m with
  | nil => simp [insertEnv, lookupEnv]
  | cons p rest ih =>
    obtain ⟨k', v'⟩ := p
    by_cases h : k' = k
    · simp [insertEnv, h, lookupEnv]
    · simp [insertEnv, h, lookupEnv, ih]

theorem lookupEnv_insertEnv_ne (m : List (String × String)) (k v k' : String)
    (h : k' ≠ k) :
    lookupEnv (insertEnv m k v) k' = lookupEnv m k' := by
  induction m with
  | nil => simp [insertEnv, lookupEnv, Ne.symm h]
  | cons p rest ih =>
    obtain ⟨k₁, v₁⟩ := p
    by_cases h₁ : k₁ = k
    · subst h₁
      simp [insertEnv, lookupEnv, Ne.symm h]
    · simp [insertEnv, h₁, lookupEnv, ih]

theorem mem_keys_insertEnv (m : List (String × String)) (k v a : String) :
    a ∈ (insertEnv m k v).map Prod.fst ↔ a ∈ m.map Prod.fst ∨ a = k := by
  induction m with
  | nil => simp [insertEnv]
  | cons p rest ih =>
    obtain ⟨k₁, v₁⟩ := p
    by_cases h₁ : k₁ = k
    · subst h₁
      have hins : insertEnv ((k₁, v₁) :: rest) k₁ v = (k₁, v) :: rest := by
        simp [insertEnv]
      rw [hins]
      simp only [List.map_cons, List.mem_cons]
      tauto
    · have hins : insertEnv ((k₁, v₁) :: rest) k v = (k₁, v₁) :: insertEnv rest k v := by
        simp [insertEnv, h₁]
      rw [hins]
      simp only [List.map_cons, List.mem_cons, ih]
      tauto

theorem keys_nodup_insertEnv (m : List (String × String)) (k v : String)
    (h : (m.map Prod.fst).Nodup) :
    ((insertEnv m k v).map Prod.fst).Nodup := by
  induction m with
  | nil => simp [insertEnv]
  | cons p rest ih =>
    obtain ⟨k₁, v₁⟩ := p
    rw [List.map_cons, List.nodup_cons] at h
    by_cases h₁ : k₁ = k
    · subst h₁
      have hins : insertEnv ((k₁, v₁) :: rest) k₁ v = (k₁, v) :: rest := by
        simp [insertEnv]
      rw [hins]
      simp only [List.map_cons, List.nodup_cons]
      exact h
    · have hins : insertEnv ((k₁, v₁) :: rest) k v = (k₁, v₁) :: insertEnv rest k v := by
        simp [insertEnv, h₁]
      rw [hins]
      simp only [List.map_cons, List.nodup_cons]
      refine ⟨fun hmem => ?_, ih h.2⟩
      rcases (mem_keys_insertEnv rest k v k₁).mp hmem with hc | hc
      · exact h.1 hc
      · exact h₁ hc

theorem lookupEnv_foldl_not_mem (l : List (String × String)) (m : List (String × String))
    (k : String) (h : k ∉ l.map Prod.fst) :
    lookupEnv (l.foldl (fun acc kv => insertEnv acc kv.1 kv.2) m) k = lookupEnv m k := by
  induction l generalizing m with
  | nil => rfl
  | cons p rest ih =>
    obtain ⟨k₁, v₁⟩ := p
    rw [List.map_cons] at h
    have h1 : k ≠ k₁ := fun hc => h (hc ▸ List.mem_cons_self _ _)
    have h2 : k ∉ rest.map Prod.fst := fun hc => h (List.mem_cons_of_mem _ hc)
    rw [List.foldl_cons, ih _ h2]
    exact lookupEnv_insertEnv_ne m k₁ v₁ k h1

theorem lookupEnv_foldl_mem (l : List (String × String)) (m : List (String × String))
    (k v : String) (hmem : (k, v) ∈ l) (hnd : (l.map Prod.fst).Nodup) :
    lookupEnv (l.foldl (fun acc kv => insertEnv acc kv.1 kv.2) m) k = some v := by
  induction l generalizing m with
  | nil => cases hmem
  | cons p rest ih =>
    obtain ⟨k₁, v₁⟩ := p
    rw [List.map_cons, List.nodup_cons] at hnd
    rcases List.mem_cons.mp hmem with heq | htail
    · rw [Prod.mk.injEq] at heq
      obtain ⟨hk, hv⟩ := heq
      subst hk
      subst hv
      rw [List.foldl_cons, lookupEnv_foldl_not_mem rest _ _ hnd.1]
      exact lookupEnv_insertEnv_self m k v
    · rw [List.foldl_cons]
      exact ih _ htail hnd.2

theorem keys_nodup_foldl (l : List (String × String)) (m : List (String × String))
    (h : (m.map Prod.fst).Nodup) :
    ((l.foldl (fun acc kv => insertEnv acc kv.1 kv.2) m).map Prod.fst).Nodup := by
  induction l generalizing m with
  | nil => exact h
  | cons p rest ih =>
    exact ih _ (keys_nodup_insertEnv _ _ _ h)

/-- C3: For every context (any starting env map with duplicate-free keys),
inherited process environment and overlay map (each with duplicate-free keys),
the environment merged by set_env and exposed via get_env binds every overlay
key to the overlay's value — overlay entries replace inherited
process-environment entries on key collision — binds every inherited key not
present in the overlay to its inherited value, and contains no duplicate
keys. -/
theorem set_env_merge (selfEnv procVars overlay : List (String × String))
    (hself : (selfEnv.map Prod.fst).Nodup)
    (hproc : (procVars.map Prod.fst).Nodup)
    (hov : (overlay.map Prod.fst).Nodup) :
    (∀ k v, (k, v) ∈ overlay → lookupEnv (set_env selfEnv procVars overlay) k = some v)
    ∧ (∀ k v, (k, v) ∈ procVars → k ∉ overlay.map Prod.fst →
        lookupEnv (set_env selfEnv procVars overlay) k = some v)
    ∧ ((set_env selfEnv procVars overlay).map Prod.fst).Nodup := by
  unfold set_env
  rw [List.foldl_append]
  refine ⟨?_, ?_, ?_⟩
  · intro k v hmem
    exact lookupEnv_foldl_mem overlay _ k v hmem hov
  · intro k v hmem hnot
    rw [lookupEnv_foldl_not_mem overlay _ k hnot]
    exact lookupEnv_foldl_mem procVars _ k v hmem hproc
  · exact keys_nodup_foldl overlay _ (keys_nodup_foldl procVars _ hself)

/-- Witness for set_env_merge at a concrete collision: the overlay's PATH
replaces the inherited PATH, HOME is kept from the inherited environment, and
the merged keys are duplicate-free. -/
theorem set_env_merge_witness :
    lookupEnv (set_env [] [("PATH", "/usr/bin"), ("HOME", "/root")]
      [("PATH", "/opt/acmed")]) "PATH" = some "/opt/acmed"
    ∧ lookupEnv (set_env [] [("PATH", "/usr/bin"), ("HOME", "/root")]
      [("PATH", "/opt/acmed")]) "HOME" = some "/root"
    ∧ ((set_env [] [("PATH", "/usr/bin"), ("HOME", "/root")]
      [("PATH", "/opt/acmed")]).map Prod.fst).Nodup := by
  obtain ⟨h1, h2, h3⟩ := set_env_merge [] [("PATH", "/usr/bin"), ("HOME", "/root")]
    [("PATH", "/opt/acmed")] (by decide) (by decide) (by decide)
  exact ⟨h1 "PATH" "/opt/acmed" (by decide), h2 "HOME" "/root" (by decide) (by decide), h3⟩

/-- C4 (renderer modelled from the spec): rendering a template that references
a field absent from the context's serialized view fails with a template
error; it never produces an output string, so no partial or garbage
substitution (such as an empty string for the unknown placeholder) can
occur. -/
theorem render_unknown_field_fails (fields : List (String × String))
    (tmpl : List TemplatePart) (f : String)
    (hmem : TemplatePart.var f ∈ tmpl) (hunknown : lookupEnv fields f = none) :
    ∃ e, render_template fields tmpl = Except.error e := by
  induction tmpl with
  | nil => cases hmem
  | cons part rest ih =>
    rcases List.mem_cons.mp hmem with heq | htail
    · subst heq
      exact ⟨"unknown field: " ++ f, by simp [render_template, hunknown]⟩
    · obtain ⟨e, he⟩ := ih htail
      cases part with
      | lit s => exact ⟨e, by simp [render_template, he]⟩
      | var g =>
        rcases hg : lookupEnv fields g with _ | v
        · exact ⟨"unknown field: " ++ g, by simp [render_template, hg]⟩
        · exact ⟨e, by simp [render_template, hg, he]⟩

/-- Witness for render_unknown_field_fails: a ChallengeHookData view without a
proof field makes the template referencing proof fail. -/
theorem render_unknown_field_fails_witness :
    TemplatePart.var "proof" ∈ [TemplatePart.lit "url: ", TemplatePart.var "proof"]
    ∧ ∃ e, render_template [("domain", "example.com")]
        [TemplatePart.lit "url: ", TemplatePart.var "proof"] = Except.error e :=
  ⟨by decide, render_unknown_field_fails [("domain", "example.com")]
    [TemplatePart.lit "url: ", TemplatePart.var "proof"] "proof" (by decide) (by decide)⟩

/-! Structural lemmas about argument rendering and dispatch. -/

theorem renderArgs_ok_mem (o : Oracle) (l : List String) :
    ∀ args, renderArgs o l = Except.ok args → ∀ t ∈ l, ∃ s, o.render t = Except.ok s := by
  induction l with
  | nil =>
    intro args _ t ht
    cases ht
  | cons t' ts ih =>
    intro args h t ht
    rw [renderArgs] at h
    split at h
    · cases h
    · rename_i s hr
      split at h
      · cases h
      · rename_i rest hr2
        rcases List.mem_cons.mp ht with heq | htail
        · exact ⟨s, heq ▸ hr⟩
        · exact ih rest hr2 t htail

theorem renderArgs_prefix_error (o : Oracle) (t e : String) (post : List String) :
    ∀ pre : List String,
      (∀ t' ∈ pre, ∃ s, o.render t' = Except.ok s) →
      o.render t = Except.error e →
      renderArgs o (pre ++ t :: post) = Except.error e := by
  intro pre
  induction pre with
  | nil =>
    intro _ hfail
    rw [List.nil_append, renderArgs, hfail]
  | cons p ps ih =>
    intro hpre hfail
    obtain ⟨s, hs⟩ := hpre p (List.mem_cons_self _ _)
    rw [List.cons_append, renderArgs, hs,
      ih (fun t' ht' => hpre t' (List.mem_cons_of_mem _ ht')) hfail]

theorem call_aux_eq_runHooks (ofn : Nat → Oracle) (env : List (String × String))
    (ht : HookType) (hooks : List Hook) :
    ∀ k, call_aux ofn env ht k hooks
      = runHooks ofn env k (hooks.filter (fun h => h.hook_type.contains ht)) := by
  induction hooks with
  | nil =>
    intro k
    rfl
  | cons h hs ih =>
    intro k
    by_cases hmem : h.hook_type.contains ht
    · have hmem' : ht ∈ h.hook_type := by simpa using hmem
      have hfc : List.filter (fun x => x.hook_type.contains ht) (h :: hs)
          = h :: List.filter (fun x => x.hook_type.contains ht) hs := by
        simp [List.filter_cons, hmem']
      rw [call_aux, if_pos hmem, hfc, runHooks]
      rcases hcs : call_single (ofn k) env h with ⟨r, tr⟩
      cases r with
      | error e => simp [hcs]
      | ok u => simp [hcs, ih (k + 1)]
    · have hmem' : ht ∉ h.hook_type := by simpa using hmem
      have hfc : List.filter (fun x => x.hook_type.contains ht) (h :: hs)
          = List.filter (fun x => x.hook_type.contains ht) hs := by
        simp [List.filter_cons, hmem']
      rw [call_aux, if_neg hmem, hfc]
      exact ih k

/-- The dispatcher run equals its spec-side description (select in order, then
invoke sequentially). -/
theorem call_eq_call_spec (cert : Certificate) (ofn : Nat → Oracle)
    (env : List (String × String)) (ht : HookType) :
    call cert ofn env ht = call_spec cert ofn env ht :=
  call_aux_eq_runHooks ofn env ht cert.hooks 0

/-- C5: dispatch invokes exactly those hooks of the certificate's list whose
event_kinds contain the dispatched event kind, in the certificate's
configured order: `call` coincides with the two-phase description that first
selects the matching hooks and then invokes only those sequentially.  In
particular a hook whose event_kinds do not contain the event kind (including
an empty event_kinds list) contributes nothing to the run — its oracle is
never consulted and no effect of it (no spawn, no file creation) enters the
trace, since the filtered list omits it. -/
theorem dispatch_selects_matching (cert : Certificate) (ofn : Nat → Oracle)
    (env : List (String × String)) (ht : HookType) :
    call cert ofn env ht
      = runHooks ofn env 0 (cert.hooks.filter (fun h => h.hook_type.contains ht)) :=
  call_aux_eq_runHooks ofn env ht cert.hooks 0

/-- C10: when no hook of the certificate's list is registered for the
dispatched event kind, dispatch returns success with an empty effect trace:
no process is spawned and no file is created or truncated.  (The context is
passed by read-only reference throughout and is nowhere mutated.) -/
theorem dispatch_no_match_noop (cert : Certificate) (ofn : Nat → Oracle)
    (env : List (String × String)) (ht : HookType)
    (hnone : ∀ h ∈ cert.hooks, ht ∉ h.hook_type) :
    call cert ofn env ht = (Except.ok (), []) := by
  rw [call_eq_call_spec]
  unfold call_spec
  have hfilter : cert.hooks.filter (fun h => h.hook_type.contains ht) = [] := by
    rw [List.filter_eq_nil_iff]
    intro h hh
    simpa using hnone h hh
  rw [hfilter]
  rfl

/-- Witness for dispatch_no_match_noop: a certificate holding one hook
registered only for post-operation events, dispatched for challenge
cleanup. -/
theorem dispatch_no_match_noop_witness :
    (∀ h ∈ (Certificate.mk [hookOther]).hooks, HookType.challengeCleanup ∉ h.hook_type)
    ∧ call (Certificate.mk [hookOther]) (fun _ => idOracle) []
        HookType.challengeCleanup = (Except.ok (), []) :=
  ⟨by decide, dispatch_no_match_noop (Certificate.mk [hookOther]) (fun _ => idOracle) []
    HookType.challengeCleanup (by decide)⟩

theorem runHooks_prefix_fail (ofn : Nat → Oracle) (env : List (String × String))
    (hk : Hook) (e : String) :
    ∀ (pre : List Hook) (k : Nat) (post post' : List Hook),
      (∀ j (hj : j < pre.length),
        (call_single (ofn (k + j)) env (pre.get ⟨j, hj⟩)).fst = Except.ok ()) →
      (call_single (ofn (k + pre.length)) env hk).fst = Except.error e →
      runHooks ofn env k (pre ++ hk :: post) = runHooks ofn env k (pre ++ hk :: post')
      ∧ (runHooks ofn env k (pre ++ hk :: post)).fst = Except.error e := by
  intro pre
  induction pre with
  | nil =>
    intro k post post' _ hfail
    simp only [List.length_nil, Nat.add_zero] at hfail
    rcases hcs : call_single (ofn k) env hk with ⟨r, tr⟩
    rw [hcs] at hfail
    cases r with
    | ok u => cases hfail
    | error e₁ =>
      cases hfail
      refine ⟨?_, ?_⟩
      · simp only [List.nil_append, runHooks, hcs]
      · simp only [List.nil_append, runHooks, hcs]
  | cons p ps ih =>
    intro k post post' hpre hfail
    have h0 : (call_single (ofn k) env p).fst = Except.ok () := by
      have h := hpre 0 (by simp)
      simpa using h
    have hfail₁ : (call_single (ofn (k + 1 + ps.length)) env hk).fst = Except.error e := by
      have harith : k + (p :: ps).length = k + 1 + ps.length := by
        simp only [List.length_cons]
        omega
      rw [harith] at hfail
      exact hfail
    have hpre₁ : ∀ j (hj : j < ps.length),
        (call_single (ofn (k + 1 + j)) env (ps.get ⟨j, hj⟩)).fst = Except.ok () := by
      intro j hj
      have h := hpre (j + 1) (by simpa using Nat.succ_lt_succ hj)
      have harith : k + (j + 1) = k + 1 + j := by omega
      rw [harith] at h
      exact h
    obtain ⟨ihEq, ihFst⟩ := ih (k + 1) post post' hpre₁ hfail₁
    rcases hcs : call_single (ofn k) env p with ⟨r, tr⟩
    rw [hcs] at h0
    cases r with
    | error e₁ => cases h0
    | ok u =>
      refine ⟨?_, ?_⟩
      · simp only [List.cons_append, runHooks, hcs, List.append_eq]
        rw [ihEq]
      · simp only [List.cons_append, runHooks, hcs, List.append_eq]
        exact ihFst

/-- C1: if an invocation of a selected hook yields a fatal error, dispatch
stops immediately: the error is returned to the caller, and the run — result
and effect trace alike — is independent of every hook after the failing one
in the selected list, so no later hook is invoked. -/
theorem dispatch_fail_fast (cert cert₁ : Certificate) (ofn : Nat → Oracle)
    (env : List (String × String)) (ht : HookType) (pre : List Hook) (hk : Hook)
    (post post₁ : List Hook) (e : String)
    (hsel : cert.hooks.filter (fun h => h.hook_type.contains ht) = pre ++ hk :: post)
    (hsel₁ : cert₁.hooks.filter (fun h => h.hook_type.contains ht) = pre ++ hk :: post₁)
    (hpre : ∀ j (hj : j < pre.length),
      (call_single (ofn j) env (pre.get ⟨j, hj⟩)).fst = Except.ok ())
    (hfail : (call_single (ofn pre.length) env hk).fst = Except.error e) :
    (call cert ofn env ht).fst = Except.error e
    ∧ call cert ofn env ht = call cert₁ ofn env ht := by
  obtain ⟨hEq, hFst⟩ := runHooks_prefix_fail ofn env hk e pre 0 post post₁
    (by intro j hj; simpa using hpre j hj) (by simpa using hfail)
  refine ⟨?_, ?_⟩
  · rw [call_eq_call_spec]
    unfold call_spec
    rw [hsel]
    exact hFst
  · rw [call_eq_call_spec, call_eq_call_spec]
    unfold call_spec
    rw [hsel, hsel₁]
    exact hEq

/-- Witness for dispatch_fail_fast: the first selected hook's argument
template fails to render, the dispatch returns that error, and appending a
further matching hook after the failing one changes nothing — it is never
invoked. -/
theorem dispatch_fail_fast_witness :
    (call (Certificate.mk [hookBadArg]) (fun _ => badRenderOracle) []
      HookType.challengeCleanup).fst = Except.error "render failed"
    ∧ call (Certificate.mk [hookBadArg]) (fun _ => badRenderOracle) []
        HookType.challengeCleanup
      = call (Certificate.mk [hookBadArg, hookPlain]) (fun _ => badRenderOracle) []
        HookType.challengeCleanup :=
  dispatch_fail_fast (Certificate.mk [hookBadArg]) (Certificate.mk [hookBadArg, hookPlain])
    (fun _ => badRenderOracle) [] HookType.challengeCleanup [] hookBadArg [] [hookPlain]
    "render failed" rfl rfl
    (by intro j hj; exact absurd hj (Nat.not_lt_zero j)) rfl

/-- C2: with allow_failure = true, a child that terminates with a non-zero
exit status does not make the invocation fail — call_single returns success
— and dispatch continues with the subsequent selected hooks: the run equals
the failing-status hook's trace followed by the run of the remaining
selected hooks. -/
theorem allowed_failure_continues (o : Oracle) (env : List (String × String)) (h : Hook)
    (args : List String) (o₁ : StdioSpec) (t₁ : List Effect) (o₂ : StdioSpec)
    (t₂ : List Effect) (st : ExitStatus)
    (hallow : h.allow_failure = true)
    (hargs : renderArgs o (h.args.getD []) = Except.ok args)
    (hout : get_hook_output o h.stdout = Except.ok (o₁, t₁))
    (herr : get_hook_output o h.stderr = Except.ok (o₂, t₂))
    (hspawn : o.spawn = Except.ok ())
    (hstdin : ∀ t, h.stdin = some t →
      ∃ s, o.render t = Except.ok s ∧ o.stdinWrite s = Except.ok ())
    (hwait : o.wait = Except.ok st)
    (hst : st.success = false) :
    (call_single o env h).fst = Except.ok ()
    ∧ ∀ (cert : Certificate) (ofn : Nat → Oracle) (ht : HookType) (rest : List Hook),
        ofn 0 = o →
        cert.hooks.filter (fun x => x.hook_type.contains ht) = h :: rest →
        call cert ofn env ht
          = ((runHooks ofn env 1 rest).fst,
             (call_single o env h).snd ++ (runHooks ofn env 1 rest).snd) := by
  have hmain : (call_single o env h).fst = Except.ok () := by
    simp only [call_single, hargs, hout, herr, hspawn]
    cases hsd : h.stdin with
    | none => simp [finishWait, hwait, hst, hallow]
    | some t =>
      obtain ⟨s, hrend, hwr⟩ := hstdin t hsd
      simp [hrend, hwr, finishWait, hwait, hst, hallow]
  refine ⟨hmain, ?_⟩
  intro cert ofn ht rest hofn hsel
  rw [call_eq_call_spec]
  unfold call_spec
  rw [hsel, runHooks, hofn]
  rcases hcs : call_single o env h with ⟨r, tr⟩
  rw [hcs] at hmain
  cases r with
  | error e => cases hmain
  | ok u => simp [hcs]

/-- Witness for allowed_failure_continues: the first selected hook exits with
code 3 under allow_failure, call_single succeeds, and the dispatch proceeds
to the next selected hook. -/
theorem allowed_failure_continues_witness :
    (call_single failExitOracle [] hookAllow).fst = Except.ok ()
    ∧ call (Certificate.mk [hookAllow, hookPlain]) (fun _ => failExitOracle) []
        HookType.challengeCleanup
      = ((runHooks (fun _ => failExitOracle) [] 1 [hookPlain]).fst,
         (call_single failExitOracle [] hookAllow).snd
           ++ (runHooks (fun _ => failExitOracle) [] 1 [hookPlain]).snd) := by
  obtain ⟨h1, h2⟩ := allowed_failure_continues failExitOracle [] hookAllow
    ["a1", "a2"] (StdioSpec.fromFile "out.log") [Effect.fileCreate "out.log"]
    StdioSpec.null [] ⟨false, some 3⟩ rfl rfl rfl rfl rfl
    (by intro t ht; simp [hookAllow] at ht) rfl rfl
  exact ⟨h1, h2 (Certificate.mk [hookAllow, hookPlain]) (fun _ => failExitOracle)
    HookType.challengeCleanup [hookPlain] rfl rfl⟩

/-- C6: if rendering any of the hook's argument templates fails, the
invocation returns that error with an empty effect trace — before any file
is created, any process is spawned, any stdin write or any wait occurs — and
the argument templates are rendered in declaration order, so the returned
error is the one of the first failing template (all templates before it
render successfully; the ones after it are irrelevant). -/
theorem arg_render_failure_aborts (o : Oracle) (env : List (String × String))
    (h : Hook) (lst pre post : List String) (t e : String)
    (hargs : h.args = some lst) (hsplit : lst = pre ++ t :: post)
    (hpre : ∀ t₁ ∈ pre, ∃ s, o.render t₁ = Except.ok s)
    (hfail : o.render t = Except.error e) :
    call_single o env h = (Except.error e, []) := by
  have hra : renderArgs o (h.args.getD []) = Except.error e := by
    rw [hargs]
    show renderArgs o lst = Except.error e
    rw [hsplit]
    exact renderArgs_prefix_error o t e post pre hpre hfail
  simp only [call_single, hra]

/-- Witness for arg_render_failure_aborts: a single failing argument template
yields the render error and an empty effect trace. -/
theorem arg_render_failure_aborts_witness :
    call_single badRenderOracle [] hookBadArg = (Except.error "render failed", []) :=
  arg_render_failure_aborts badRenderOracle [] hookBadArg ["BAD"] [] [] "BAD"
    "render failed" rfl rfl (by intro t₁ ht₁; exact absurd ht₁ (List.not_mem_nil t₁)) rfl

/-- C7: with a stdin template bound, the stdin template is consumed only after
the child has been spawned: when the argument and output-path templates
resolve, the files are created and the spawn succeeds, a failing stdin
template still leaves the spawn effect in the trace — the invocation returns
the render error with the trace ending at the spawn, with no stdin write and
no wait, so the already-spawned child runs on with empty input.  (Were stdin
rendered before spawning, a failing stdin template would yield an empty
trace, as a failing argument template does.) -/
theorem stdin_rendered_after_spawn (o : Oracle) (env : List (String × String))
    (h : Hook) (args : List String) (o₁ : StdioSpec) (t₁ : List Effect)
    (o₂ : StdioSpec) (t₂ : List Effect) (t e : String)
    (hargs : renderArgs o (h.args.getD []) = Except.ok args)
    (hout : get_hook_output o h.stdout = Except.ok (o₁, t₁))
    (herr : get_hook_output o h.stderr = Except.ok (o₂, t₂))
    (hspawn : o.spawn = Except.ok ())
    (hstdin : h.stdin = some t)
    (hrender : o.render t = Except.error e) :
    call_single o env h
      = (Except.error e,
         t₁ ++ t₂ ++ [Effect.spawn h.cmd args env o₁ o₂ StdioSpec.piped]) := by
  simp only [call_single, hargs, hout, herr, hspawn, hstdin, hrender]

/-- Witness for stdin_rendered_after_spawn: the stdout file creation and the
spawn are in the trace even though the stdin template failed to render. -/
theorem stdin_rendered_after_spawn_witness :
    call_single badRenderOracle [] hookBadStdin
      = (Except.error "render failed",
         [Effect.fileCreate "out.log"] ++ []
           ++ [Effect.spawn "/bin/cat" [] [] (StdioSpec.fromFile "out.log")
                StdioSpec.null StdioSpec.piped]) :=
  stdin_rendered_after_spawn badRenderOracle [] hookBadStdin []
    (StdioSpec.fromFile "out.log") [Effect.fileCreate "out.log"] StdioSpec.null []
    "BAD" "render failed" rfl rfl rfl rfl rfl rfl

theorem mem_finishWait_snd (o : Oracle) (h : Hook) (tr : List Effect) (x : Effect)
    (hx : x ∈ tr) : x ∈ (finishWait o h tr).snd := by
  unfold finishWait
  rcases hw : o.wait with e | st
  · simpa using hx
  · by_cases hb : (!st.success && !h.allow_failure) = true
    · simp [hb, List.mem_append, hx]
    · simp [hb, List.mem_append, hx]

/-- C8: stream binding for the spawned child.  A present stdout/stderr path
template is rendered against the context and a file is created (truncating an
existing one) at the resolved path, the stream being bound to that file; a
render failure or a file-creation failure fails the invocation (for stderr,
after the stdout file was already created, hence the trace t₁); an absent
path template binds that stream to the null discard device with no file
touched; and the child's stdin is bound to a pipe exactly when a stdin
template is present, and to the closed null input otherwise, as the spawn
effect in the trace records. -/
theorem output_redirection_bindings (o : Oracle) (env : List (String × String))
    (h : Hook) (args : List String)
    (hargs : renderArgs o (h.args.getD []) = Except.ok args) :
    (∀ tmpl path, o.render tmpl = Except.ok path → o.fileCreate path = Except.ok () →
      get_hook_output o (some tmpl)
        = Except.ok (StdioSpec.fromFile path, [Effect.fileCreate path]))
    ∧ (∀ tmpl e, o.render tmpl = Except.error e →
      get_hook_output o (some tmpl) = Except.error e)
    ∧ (∀ tmpl path e, o.render tmpl = Except.ok path → o.fileCreate path = Except.error e →
      get_hook_output o (some tmpl) = Except.error e)
    ∧ get_hook_output o none = Except.ok (StdioSpec.null, [])
    ∧ (∀ e, get_hook_output o h.stdout = Except.error e →
      call_single o env h = (Except.error e, []))
    ∧ (∀ o₁ t₁ e, get_hook_output o h.stdout = Except.ok (o₁, t₁) →
      get_hook_output o h.stderr = Except.error e →
      call_single o env h = (Except.error e, t₁))
    ∧ (∀ o₁ t₁ o₂ t₂, get_hook_output o h.stdout = Except.ok (o₁, t₁) →
      get_hook_output o h.stderr = Except.ok (o₂, t₂) → o.spawn = Except.ok () →
      Effect.spawn h.cmd args env o₁ o₂
          (match h.stdin with | some _ => StdioSpec.piped | none => StdioSpec.null)
        ∈ (call_single o env h).snd) := by
  refine ⟨?_, ?_, ?_, rfl, ?_, ?_, ?_⟩
  · intro tmpl path hr hc
    simp [get_hook_output, hr, hc]
  · intro tmpl e hr
    simp [get_hook_output, hr]
  · intro tmpl path e hr hc
    simp [get_hook_output, hr, hc]
  · intro e hgo
    simp [call_single, hargs, hgo]
  · intro o₁ t₁ e ho hge
    simp [call_single, hargs, ho, hge]
  · intro o₁ t₁ o₂ t₂ ho hge hsp
    simp only [call_single, hargs, ho, hge, hsp]
    cases hsd : h.stdin with
    | none =>
      exact mem_finishWait_snd o h _ _ (by simp)
    | some t =>
      rcases hr : o.render t with e | s
      · simp [hr]
      · rcases hw : o.stdinWrite s with e | u
        · simp [hr, hw]
        · simp only [hr, hw]
          exact mem_finishWait_snd o h _ _ (by simp)

/-- Witness for output_redirection_bindings: with a stdout path template and a
stdin template present and everything succeeding, the spawn effect records
the stdout file binding, the null stderr binding and the piped stdin. -/
theorem output_redirection_bindings_witness :
    Effect.spawn "/bin/cat" [] [] (StdioSpec.fromFile "out.log") StdioSpec.null
      StdioSpec.piped ∈ (call_single idOracle [] hookBadStdin).snd :=
  (output_redirection_bindings idOracle [] hookBadStdin [] rfl).2.2.2.2.2.2
    (StdioSpec.fromFile "out.log") [Effect.fileCreate "out.log"] StdioSpec.null []
    rfl rfl rfl

theorem call_single_ok_renders (o : Oracle) (env : List (String × String)) (h : Hook)
    (hok : (call_single o env h).fst = Except.ok ()) :
    (∀ t ∈ h.args.getD [], ∃ s, o.render t = Except.ok s)
    ∧ (∀ t, h.stdout = some t → ∃ s, o.render t = Except.ok s)
    ∧ (∀ t, h.stderr = some t → ∃ s, o.render t = Except.ok s)
    ∧ (∀ t, h.stdin = some t → ∃ s, o.render t = Except.ok s) := by
  rcases hra : renderArgs o (h.args.getD []) with e | args
  · simp [call_single, hra] at hok
  · rcases hgo : get_hook_output o h.stdout with e | p₁
    · simp [call_single, hra, hgo] at hok
    · obtain ⟨o₁, t₁⟩ := p₁
      rcases hge : get_hook_output o h.stderr with e | p₂
      · simp [call_single, hra, hgo, hge] at hok
      · obtain ⟨o₂, t₂⟩ := p₂
        rcases hsp : o.spawn with e | u
        · simp [call_single, hra, hgo, hge, hsp] at hok
        · refine ⟨renderArgs_ok_mem o _ args hra, ?_, ?_, ?_⟩
          · intro tm hsd
            rw [hsd] at hgo
            rcases hr : o.render tm with e | s
            · simp [get_hook_output, hr] at hgo
            · exact ⟨s, rfl⟩
          · intro tm hsd
            rw [hsd] at hge
            rcases hr : o.render tm with e | s
            · simp [get_hook_output, hr] at hge
            · exact ⟨s, rfl⟩
          · intro tm hsd
            rcases hr : o.render tm with e | s
            · simp [call_single, hra, hgo, hge, hsp, hsd, hr] at hok
            · exact ⟨s, rfl⟩

/-- C9: a template rendering error — in the argument templates, the stdout or
stderr path templates, or the stdin template — makes the invocation fail
whatever the hook's allow_failure flag is set to: the flag only suppresses
non-zero child exit statuses, never template errors. -/
theorem template_error_never_allowed (o : Oracle) (env : List (String × String))
    (h : Hook) (b : Bool)
    (hfail :
      (∃ t, t ∈ h.args.getD [] ∧ ∃ e, o.render t = Except.error e)
      ∨ (∃ t e, h.stdout = some t ∧ o.render t = Except.error e)
      ∨ (∃ t e, h.stderr = some t ∧ o.render t = Except.error e)
      ∨ (∃ t e, h.stdin = some t ∧ o.render t = Except.error e)) :
    ∃ e, (call_single o env (setAllowFailure h b)).fst = Except.error e := by
  rcases hres : (call_single o env (setAllowFailure h b)).fst with e | u
  · exact ⟨e, rfl⟩
  · exfalso
    cases u
    have hr := call_single_ok_renders o env (setAllowFailure h b) hres
    rcases hfail with ⟨t, htm, e, he⟩ | ⟨t, e, hsd, he⟩ | ⟨t, e, hsd, he⟩ | ⟨t, e, hsd, he⟩
    · obtain ⟨s, hs⟩ := hr.1 t htm
      rw [hs] at he
      cases he
    · obtain ⟨s, hs⟩ := hr.2.1 t hsd
      rw [hs] at he
      cases he
    · obtain ⟨s, hs⟩ := hr.2.2.1 t hsd
      rw [hs] at he
      cases he
    · obtain ⟨s, hs⟩ := hr.2.2.2 t hsd
      rw [hs] at he
      cases he

/-- Witness for template_error_never_allowed: the hook's argument template
fails to render and the invocation errors even with allow_failure forced to
true. -/
theorem template_error_never_allowed_witness :
    (∃ t, t ∈ hookBadArg.args.getD [] ∧ ∃ e, badRenderOracle.render t = Except.error e)
    ∧ ∃ e, (call_single badRenderOracle [] (setAllowFailure hookBadArg true)).fst
        = Except.error e :=
  ⟨⟨"BAD", by simp [hookBadArg], "render failed", rfl⟩,
   template_error_never_allowed badRenderOracle [] hookBadArg true
     (Or.inl ⟨"BAD", by simp [hookBadArg], "render failed", rfl⟩)⟩

end Hooks
